import Mathlib

/-!
Verification of the Video-Call-Translator pipeline core.

Shallow embedding of `src/main.py` (class `VideoCallTranslator`): the wire
framer (`struct.pack("!BQ", ...)` / `struct.unpack("!BQ", ...)`), the
network thread's send and receive attempts, the recognition, translation
and video stage step functions, and the orchestrator's shutdown cleanup.

Bytes are modelled as `List Nat` (each element a byte value); Python
exceptions raised by external collaborators are modelled as `Option` /
explicit result values; the external collaborators themselves
(`pickle.dumps` / `pickle.loads`, `str.encode` / `bytes.decode`, the ASR,
MT and TTS engines) are parameters of the step functions.
-/

namespace VCT

/-! ## Transport framer: `struct.pack("!BQ", tag, n)` and its inverse -/

/-- Big-endian byte list of `n`, `k` bytes wide (most significant first).
Models the `Q` (8-byte unsigned big-endian) field of `struct.pack("!BQ", ...)`
when `k = 8`. -/
def natToBE : Nat → Nat → List Nat
  | 0, _ => []
  | k + 1, n => natToBE k (n / 256) ++ [n % 256]

/-- Big-endian interpretation of a byte list, the inverse direction used by
`struct.unpack("!BQ", ...)`. -/
def beToNat (l : List Nat) : Nat :=
  l.foldl (fun acc b => acc * 256 + b) 0

/-- Model of `struct.pack("!BQ", tag, n)`: 1-byte unsigned tag followed by
8-byte unsigned big-endian length.  Python raises `struct.error` when an
argument is out of range for its format code; we model that as `none`. -/
def packBQ (tag n : Nat) : Option (List Nat) :=
  if tag < 256 ∧ n < 2 ^ 64 then some (tag :: natToBE 8 n) else none

/-- Model of `struct.unpack("!BQ", bs)`: requires exactly 9 bytes (else
`struct.error`, modelled as `none`), returns the tag byte and the big-endian
value of the remaining 8 bytes. -/
def unpackBQ (l : List Nat) : Option (Nat × Nat) :=
  match l with
  | [] => none
  | t :: rest => if rest.length = 8 then some (t, beToNat rest) else none

/-- The framer's encode: `struct.pack("!BQ", tag, len(payload)) + payload`
(`main.py` lines 236-244). -/
def encode (tag : Nat) (payload : List Nat) : Option (List Nat) :=
  (packBQ tag payload.length).map (fun h => h ++ payload)

/-- The framer's header decode: take the first 9 bytes of the stream
(`self.connection.recv(9)`) and unpack them (`main.py` line 259). -/
def decodeHeader (bs : List Nat) : Option (Nat × Nat) :=
  unpackBQ (bs.take 9)

/-! ## Network messages and the send attempt (`network_thread`, lines 229-249) -/

/-- An entry of `self.network_queue`: `('video', frame)` or `('text', text)`.
`F` is the frame type (OpenCV arrays in the source). -/
inductive NetMsg (F : Type) where
  | video (f : F)
  | text (s : String)
deriving DecidableEq, Repr

/-- The wire tag the send path uses: `0` for video, `1` for text
(`main.py` lines 238, 243). -/
def tagOf {F : Type} : NetMsg F → Nat
  | .video _ => 0
  | .text _ => 1

/-- The payload bytes of a message: `pickle.dumps(frame)` for video
(`serialize` parameter), `text.encode('utf-8')` for text (`enc` parameter). -/
def payloadBytes {F : Type} (serialize : F → List Nat) (enc : String → List Nat) :
    NetMsg F → List Nat
  | .video f => serialize f
  | .text s => enc s

/-- The bytes passed to the single `self.connection.sendall(header + data)`
call for one message (`main.py` lines 234-244); `none` when `struct.pack`
raises. -/
def sendStep {F : Type} (serialize : F → List Nat) (enc : String → List Nat)
    (m : NetMsg F) : Option (List Nat) :=
  match m with
  | .video f => (packBQ 0 (serialize f).length).map (fun h => h ++ serialize f)
  | .text s => (packBQ 1 (enc s).length).map (fun h => h ++ enc s)

/-- Outcome of the `sendall` attempt, covering the exception clauses of the
send `try` block (`main.py` lines 245-249). -/
inductive SendOutcome where
  | ok
  | connReset
  | brokenPipe
  | sockTimeout
  | otherErr
deriving DecidableEq, Repr

/-- The transient socket conditions caught by
`except (ConnectionResetError, BrokenPipeError, socket.timeout): continue`. -/
def SendOutcome.transient : SendOutcome → Bool
  | .connReset => true
  | .brokenPipe => true
  | .sockTimeout => true
  | _ => false

/-- What the transport loop does after an attempt: fall through to the next
iteration (`continue` / normal flow) or leave the loop (`break`). -/
inductive Action where
  | cont
  | brk
deriving DecidableEq, Repr

/-- One send attempt of the transport loop (`main.py` lines 230-249):
if the queue is non-empty, pop one message, frame it and `sendall` it.
Returns the remaining queue, the loop action, and the list of byte strings
written on the wire by this attempt. -/
def sendAttempt {F : Type} (serialize : F → List Nat) (enc : String → List Nat)
    (outcome : SendOutcome) (q : List (NetMsg F)) :
    List (NetMsg F) × Action × List (List Nat) :=
  match q with
  | [] => ([], .cont, [])
  | m :: rest =>
    match sendStep serialize enc m with
    | none => (rest, .brk, [])
    | some wire =>
      match outcome with
      | .ok => (rest, .cont, [wire])
      | .connReset => (rest, .cont, [])
      | .brokenPipe => (rest, .cont, [])
      | .sockTimeout => (rest, .cont, [])
      | .otherErr => (rest, .brk, [])

/-! ## The receive attempt (`network_thread`, lines 251-295)

The socket's receive side is modelled deterministically: a buffer of bytes
already delivered plus an end-of-stream flag.  `recv(n)` returns up to `n`
buffered bytes; on an empty buffer it returns `b''` at end of stream and
raises `socket.timeout` otherwise. -/

/-- Receive-side state of `self.connection`. -/
structure Conn where
  buffered : List Nat
  eof : Bool
deriving DecidableEq, Repr

/-- Result of one `recv(n)` call: `socket.timeout`, or a (possibly empty)
chunk of bytes. -/
inductive RecvRes where
  | sockTimeout
  | data (bs : List Nat)
deriving DecidableEq, Repr

/-- Model of `self.connection.recv(n)` on the modelled connection. -/
def recvOp (n : Nat) (c : Conn) : RecvRes × Conn :=
  if c.buffered = [] then
    if c.eof then (.data [], c) else (.sockTimeout, c)
  else (.data (c.buffered.take n), ⟨c.buffered.drop n, c.eof⟩)

/-- Result of the payload-accumulation loop (`main.py` lines 262-269):
`socket.timeout` propagated out of a `recv`, an empty chunk broke the loop
with fewer than the announced bytes (`received < msg_size`), or exactly the
announced bytes were accumulated. -/
inductive PayloadRes where
  | sockTimeout
  | eofShort (bs : List Nat)
  | got (bs : List Nat)
deriving DecidableEq, Repr

/-- The payload-accumulation loop: `while received < msg_size:` read chunks
of `min(msg_size - received, 4096)` bytes, breaking on an empty chunk. -/
def recvPayload (need : Nat) (c : Conn) : PayloadRes × Conn :=
  if _h : need = 0 then (.got [], c)
  else
    match recvOp (min need 4096) c with
    | (.sockTimeout, c1) => (.sockTimeout, c1)
    | (.data [], c1) => (.eofShort [], c1)
    | (.data (b :: bs), c1) =>
      match recvPayload (need - (b :: bs).length) c1 with
      | (.got rest, c2) => (.got ((b :: bs) ++ rest), c2)
      | (.eofShort rest, c2) => (.eofShort ((b :: bs) ++ rest), c2)
      | (.sockTimeout, c2) => (.sockTimeout, c2)
termination_by need
decreasing_by simp; omega

/-- Console output of one transport-loop or stage iteration
(`print(...)` calls in `main.py`). -/
inductive LogMsg where
  | receivedText (t : String)
  | frameUnpicklingError
  | textDecodeError
  | speechRecognitionError (e : String)
  | recognitionError (e : String)
  | translationError (e : String)
  | frameCaptureFailed
deriving DecidableEq, Repr

/-- One receive attempt of the transport loop (`main.py` lines 251-295):
read a 9-byte header, unpack it, accumulate the announced payload, then
decode it by tag.  `unpickle` models `pickle.loads` (`none` = exception),
`utf8dec` models `bytes.decode('utf-8')` (`none` = `UnicodeDecodeError`).
Returns the latest-remote-frame cell, the connection, the loop action and
the console output of this attempt. -/
def receiveStep {F : Type} (unpickle : List Nat → Option F)
    (utf8dec : List Nat → Option String) (c : Conn) (remote : Option F) :
    Option F × Conn × Action × List LogMsg :=
  match recvOp 9 c with
  | (.sockTimeout, c1) => (remote, c1, .cont, [])
  | (.data hdr, c1) =>
    if hdr = [] then (remote, c1, .cont, [])
    else
      match unpackBQ hdr with
      | none => (remote, c1, .cont, [])
      | some (tag, size) =>
        match recvPayload size c1 with
        | (.sockTimeout, c2) => (remote, c2, .cont, [])
        | (.eofShort _, c2) => (remote, c2, .cont, [])
        | (.got data, c2) =>
          if tag = 0 then
            match unpickle data with
            | some f => (some f, c2, .cont, [])
            | none => (remote, c2, .cont, [.frameUnpicklingError])
          else if tag = 1 then
            match utf8dec data with
            | some t => (remote, c2, .cont, [.receivedText t])
            | none => (remote, c2, .cont, [.textDecodeError])
          else (remote, c2, .cont, [])

/-! ## Recognition stage (`speech_recognition_thread`, lines 129-144) -/

/-- Outcome of `self.recognizer.recognize_google(audio, ...)`: recognized
text, `sr.UnknownValueError`, `sr.RequestError`, or any other exception. -/
inductive ASRResult where
  | success (t : String)
  | unknownValue
  | requestError (e : String)
  | otherError (e : String)
deriving DecidableEq, Repr

/-- One iteration of the recognition stage: pop an audio segment if one is
queued, run the ASR engine (`asr` parameter), and on success push the text
to `self.text_queue` and — if `self.in_call` — a `('text', text)` message to
`self.network_queue`.  Returns the audio queue, text queue, network queue
and console output after the iteration. -/
def recognitionStep {A F : Type} (asr : A → ASRResult) (in_call : Bool)
    (audioQ : List A) (textQ : List String) (netQ : List (NetMsg F)) :
    List A × List String × List (NetMsg F) × List LogMsg :=
  match audioQ with
  | [] => ([], textQ, netQ, [])
  | a :: rest =>
    match asr a with
    | .success t =>
      (rest, textQ ++ [t], if in_call then netQ ++ [NetMsg.text t] else netQ, [])
    | .unknownValue => (rest, textQ, netQ, [])
    | .requestError e => (rest, textQ, netQ, [.speechRecognitionError e])
    | .otherError e => (rest, textQ, netQ, [.recognitionError e])

/-! ## Translation stage (`translation_thread`, lines 146-166) -/

/-- External-collaborator calls made by one translation-stage iteration:
`self.translator.translate(...)`, `gTTS(...)` synthesis, and
`pygame.mixer.music.play()`. -/
inductive ExtCall where
  | mtCall (src dst text : String)
  | ttsCall (t : String)
  | playCall
deriving DecidableEq, Repr

/-- One iteration of the translation stage: pop a recognized text if one is
queued; when `self.translating` is set, translate it (`mt` parameter),
push the translation to `self.translation_queue`, synthesize it (`tts`
parameter) and play it; any failure inside the `try` is printed.  Returns
the text queue, translation queue, the external calls made, and console
output after the iteration. -/
def translationStep (mt : String → String → String → Except String String)
    (tts : String → Except String Unit) (src dst : String) (translating : Bool)
    (textQ : List String) (transQ : List String) :
    List String × List String × List ExtCall × List LogMsg :=
  match textQ with
  | [] => ([], transQ, [], [])
  | t :: rest =>
    if translating then
      match mt src dst t with
      | .error e => (rest, transQ, [.mtCall src dst t], [.translationError e])
      | .ok tr =>
        match tts tr with
        | .error e =>
          (rest, transQ ++ [tr], [.mtCall src dst t, .ttsCall tr], [.translationError e])
        | .ok _ =>
          (rest, transQ ++ [tr], [.mtCall src dst t, .ttsCall tr, .playCall], [])
    else (rest, transQ, [], [])

/-! ## Video stage (`video_capture_thread`, lines 168-201) -/

/-- Result of one video-stage iteration. -/
structure VideoOut (Fr : Type) where
  textQ : List String
  transQ : List String
  netQ : List (NetMsg Fr)
  overlayText : Option String
  overlayTransl : Option String
  shownRemote : Bool
  running : Bool
  logs : List LogMsg

/-- One iteration of the video stage: read a frame (`capResult`, `none` when
`self.cap.read()` fails), resize it, overlay the last entries of
`self.text_queue` and (when `self.translating`) `self.translation_queue`
read via `queue[-1]` without dequeuing, enqueue the frame on
`self.network_queue` when `self.in_call`, show the remote frame when the
cell is non-empty, and clear `self.running` when the quit key is pressed. -/
def videoCaptureStep {Fr : Type} (resize : Fr → Fr) (translating in_call : Bool)
    (capResult : Option Fr) (textQ transQ : List String)
    (netQ : List (NetMsg Fr)) (remote : Option Fr) (quitKey : Bool) :
    VideoOut Fr :=
  match capResult with
  | none =>
    { textQ := textQ, transQ := transQ, netQ := netQ, overlayText := none,
      overlayTransl := none, shownRemote := false, running := true,
      logs := [.frameCaptureFailed] }
  | some f0 =>
    let frame := resize f0
    { textQ := textQ
      transQ := transQ
      netQ := if in_call then netQ ++ [NetMsg.video frame] else netQ
      overlayText := if textQ.isEmpty then none else textQ.getLast?
      overlayTransl :=
        if !transQ.isEmpty && translating then transQ.getLast? else none
      shownRemote := remote.isSome
      running := if quitKey then false else true
      logs := [] }

/-! ## Network-thread socket operations and orchestrator cleanup
(`network_thread` lines 203-226 and 299-304, `start` lines 306-339) -/

/-- A socket operation performed by the network thread. -/
inductive SockOp where
  | create
  | bindOp
  | listenOp
  | acceptOp
  | connectOp
  | closeOp
deriving DecidableEq, Repr

/-- The socket operations the network thread performs over a full run:
`if not self.in_call: return` skips everything; otherwise host or client
setup, then the duplex loop (abstracted as `loopOps`), then the `finally`
block's closes. -/
def networkThreadOps (in_call is_host : Bool) (loopOps : List SockOp) :
    List SockOp :=
  if !in_call then []
  else
    (if is_host then [SockOp.create, .bindOp, .listenOp, .acceptOp]
     else [SockOp.create, .connectOp]) ++ loopOps ++ [SockOp.closeOp, .closeOp]

/-- A teardown action of the orchestrator's cleanup block
(`start`, lines 330-338). -/
inductive CleanupAct where
  | releaseCamera
  | destroyWindows
  | quitAudio
  | closeConnection
  | closeSocket
deriving DecidableEq, Repr

/-- Which cleanup calls raise an exception, modelling failures of
`self.cap.release()`, `cv2.destroyAllWindows()` and `pygame.quit()`. -/
structure CleanupBehavior where
  capReleaseFails : Bool
  destroyWindowsFails : Bool
  pygameQuitFails : Bool
deriving DecidableEq, Repr

/-- The orchestrator's cleanup (`start`, lines 330-338), executed
sequentially with Python exception semantics: the statements are not
individually scoped, so a raising call aborts the remaining ones and the
exception propagates out of `start`.  `hasConn` / `hasSock` model
`self.connection` / `self.socket` being non-`None`.  Returns the cleanup
actions completed and whether the block ran to completion. -/
def cleanup (b : CleanupBehavior) (hasConn hasSock : Bool) :
    List CleanupAct × Bool :=
  if b.capReleaseFails then ([], false)
  else if b.destroyWindowsFails then ([.releaseCamera], false)
  else if b.pygameQuitFails then ([.releaseCamera, .destroyWindows], false)
  else
    ([CleanupAct.releaseCamera, .destroyWindows, .quitAudio]
      ++ (if hasConn then [CleanupAct.closeConnection] else [])
      ++ (if hasSock then [CleanupAct.closeSocket] else []), true)

/-! ## Lemmas about the framer -/

theorem natToBE_length (k n : Nat) : (natToBE k n).length = k := by
  induction k generalizing n with
  | zero => rfl
  | succ k ih => simp [natToBE, ih]

theorem beToNat_append_single (l : List Nat) (b : Nat) :
    beToNat (l ++ [b]) = beToNat l * 256 + b := by
  simp [beToNat, List.foldl_append]

theorem beToNat_natToBE (k n : Nat) (h : n < 256 ^ k) :
    beToNat (natToBE k n) = n := by
  induction k generalizing n with
  | zero =>
    simp [natToBE, beToNat]
    omega
  | succ k ih =>
    have hdiv : n / 256 < 256 ^ k := by
      rw [Nat.div_lt_iff_lt_mul (by norm_num : 0 < 256)]
      calc n < 256 ^ (k + 1) := h
        _ = 256 ^ k * 256 := by ring
    rw [natToBE, beToNat_append_single, ih (n / 256) hdiv]
    omega

theorem unpackBQ_some_length {l : List Nat} {p : Nat × Nat}
    (h : unpackBQ l = some p) : l.length = 9 := by
  cases l with
  | nil => simp [unpackBQ] at h
  | cons t rest =>
    by_cases h8 : rest.length = 8
    · simp [List.length_cons, h8]
    · simp [unpackBQ, h8] at h

/-! ## Lemmas about the receive loop -/

theorem recvPayload_exact (need : Nat) (c : Conn)
    (h : need ≤ c.buffered.length) :
    recvPayload need c =
      (.got (c.buffered.take need), ⟨c.buffered.drop need, c.eof⟩) := by
  induction need using Nat.strong_induction_on generalizing c with
  | _ need ih =>
    rw [recvPayload]
    by_cases h0 : need = 0
    · subst h0
      simp
    · rw [dif_neg h0]
      obtain ⟨m, hm⟩ : ∃ m, min need 4096 = m + 1 := ⟨min need 4096 - 1, by omega⟩
      cases hb : c.buffered with
      | nil =>
        rw [hb] at h
        simp at h
        omega
      | cons x xs =>
        have hxlen : need ≤ xs.length + 1 := by
          rw [hb] at h; simpa using h
        have hm1 : m + 1 ≤ need := by
          have := Nat.min_le_left need 4096
          omega
        have hmx : m ≤ xs.length := by omega
        have hrecv : recvOp (min need 4096) c =
            (.data (x :: xs.take m), ⟨xs.drop m, c.eof⟩) := by
          rw [recvOp, if_neg (by rw [hb]; simp), hb, hm]
          simp
        rw [hrecv]
        have htklen : (x :: xs.take m).length = m + 1 := by
          simp [List.length_take, Nat.min_eq_left hmx]
        simp only
        have hih := ih (need - (x :: xs.take m).length)
          (by rw [htklen]; omega) ⟨xs.drop m, c.eof⟩
          (by simp [htklen]; omega)
        rw [hih]
        have hneed : need = (m + 1) + (need - (m + 1)) := by omega
        dsimp only
        rw [Prod.mk.injEq]
        refine ⟨?_, ?_⟩
        · rw [htklen]
          congr 1
          conv_rhs => rw [hneed, List.take_add]
          simp
        · rw [htklen]
          congr 1
          rw [List.drop_drop]
          conv_rhs => rw [show need = (need - 1) + 1 from by omega]
          rw [List.drop_succ_cons]
          congr 1
          omega

theorem recvPayload_eof_short (need : Nat) (c : Conn) (he : c.eof = true)
    (h : c.buffered.length < need) :
    ∃ bs, recvPayload need c = (.eofShort bs, ⟨[], true⟩) := by
  induction need using Nat.strong_induction_on generalizing c with
  | _ need ih =>
    obtain ⟨buf, e⟩ := c
    simp only at he h
    subst he
    rw [recvPayload, dif_neg (by omega : ¬ need = 0)]
    cases hb : buf with
    | nil =>
      exact ⟨[], rfl⟩
    | cons x xs =>
      subst hb
      obtain ⟨m, hm⟩ : ∃ m, min need 4096 = m + 1 := ⟨min need 4096 - 1, by omega⟩
      have hrecv : recvOp (min need 4096) ⟨x :: xs, true⟩ =
          (.data (x :: xs.take m), ⟨xs.drop m, true⟩) := by
        rw [recvOp, if_neg (by simp), hm]
        simp
      have hlen1 : (xs.take m).length ≤ m := by
        rw [List.length_take]
        exact Nat.min_le_left _ _
      have hlen2 : (xs.take m).length ≤ xs.length := by
        rw [List.length_take]
        exact Nat.min_le_right _ _
      have hx : xs.length + 1 < need := by simpa using h
      obtain ⟨bs', hbs'⟩ := ih (need - (x :: xs.take m).length)
        (by rw [List.length_cons]; omega) ⟨xs.drop m, true⟩ rfl
        (by
          dsimp only
          rw [List.length_drop, List.length_cons]
          omega)
      refine ⟨(x :: xs.take m) ++ bs', ?_⟩
      rw [hrecv]
      dsimp only
      rw [hbs']

theorem recvOp_header (hdr rest : List Nat) (e : Bool) (h9 : hdr.length = 9) :
    recvOp 9 ⟨hdr ++ rest, e⟩ = (.data hdr, ⟨rest, e⟩) := by
  rw [recvOp, if_neg]
  · dsimp only
    rw [List.take_left' h9, List.drop_left' h9]
  · dsimp only
    intro hc
    have := congrArg List.length hc
    simp [h9] at this

/-- Shared helper: under the `struct.pack` range conditions, framing a
payload and decoding the first 9 bytes of the result recovers the tag and
the payload byte count. -/
theorem decodeHeader_encode (tag : Nat) (payload : List Nat)
    (htag : tag < 256) (hlen : payload.length < 2 ^ 64) :
    encode tag payload = some ((tag :: natToBE 8 payload.length) ++ payload)
    ∧ decodeHeader ((tag :: natToBE 8 payload.length) ++ payload)
        = some (tag, payload.length) := by
  have h9 : (tag :: natToBE 8 payload.length).length = 9 := by
    simp [natToBE_length]
  have h256 : (256 : Nat) ^ 8 = 2 ^ 64 := by norm_num
  constructor
  · rw [encode, packBQ, if_pos ⟨htag, hlen⟩]
    rfl
  · rw [decodeHeader, List.take_left' h9, unpackBQ]
    rw [if_pos (by simp [natToBE_length])]
    rw [beToNat_natToBE 8 payload.length (by omega)]

/-! ## The claims -/

/-- C1: for every tag in {0, 1} and every payload, decoding the 9-byte
header produced by framing `(tag, payload)` with `struct.pack("!BQ", tag,
len(payload)) + payload` yields exactly `(tag, len(payload))`.  The length
hypothesis is the `Q` format-code range (a Python `bytes` length always
satisfies it). -/
theorem framer_header_roundtrip (tag : Nat) (payload : List Nat)
    (htag : tag = 0 ∨ tag = 1) (hlen : payload.length < 2 ^ 64) :
    (encode tag payload).bind decodeHeader = some (tag, payload.length) := by
  have htag' : tag < 256 := by rcases htag with h | h <;> omega
  obtain ⟨h1, h2⟩ := decodeHeader_encode tag payload htag' hlen
  rw [h1, Option.some_bind, h2]

/-- Witness for C1: tag 1, a 2-byte payload. -/
theorem framer_header_roundtrip_witness :
    (encode 1 [104, 105]).bind decodeHeader = some (1, 2) :=
  framer_header_roundtrip 1 [104, 105] (Or.inr rfl) (by norm_num)

/-- C2: every message the send path emits on the wire is written as a single
`sendall` of header followed by payload, where the 1-byte tag is 0 for
video and 1 for text and the 8-byte big-endian length field equals the
exact payload byte count. -/
theorem send_wire_format {F : Type} (serialize : F → List Nat)
    (enc : String → List Nat) (m : NetMsg F)
    (hlen : (payloadBytes serialize enc m).length < 2 ^ 64) :
    sendStep serialize enc m =
      some ((tagOf m :: natToBE 8 (payloadBytes serialize enc m).length)
        ++ payloadBytes serialize enc m)
    ∧ beToNat (natToBE 8 (payloadBytes serialize enc m).length)
        = (payloadBytes serialize enc m).length
    ∧ decodeHeader ((tagOf m :: natToBE 8 (payloadBytes serialize enc m).length)
        ++ payloadBytes serialize enc m)
        = some (tagOf m, (payloadBytes serialize enc m).length)
    ∧ (tagOf m = 0 ∨ tagOf m = 1)
    ∧ (∀ f, m = NetMsg.video f → tagOf m = 0)
    ∧ (∀ s, m = NetMsg.text s → tagOf m = 1) := by
  have h256 : (256 : Nat) ^ 8 = 2 ^ 64 := by norm_num
  have htag : tagOf m < 256 := by cases m <;> simp [tagOf]
  obtain ⟨h1, h2⟩ := decodeHeader_encode (tagOf m) (payloadBytes serialize enc m)
    htag hlen
  have hsend : sendStep serialize enc m
      = encode (tagOf m) (payloadBytes serialize enc m) := by
    cases m <;> rfl
  refine ⟨by rw [hsend, h1], ?_, h2, by cases m <;> simp [tagOf],
    fun f hf => by subst hf; rfl, fun s hs => by subst hs; rfl⟩
  exact beToNat_natToBE 8 _ (by omega)

/-- Witness for C2: a video message whose serialized frame is one byte. -/
theorem send_wire_format_witness :
    sendStep (fun _ : Unit => [5]) (fun _ => []) (NetMsg.video ()) =
      some ((0 :: natToBE 8 1) ++ [5]) :=
  (send_wire_format (fun _ : Unit => [5]) (fun _ => []) (NetMsg.video ())
    (by decide)).1

/-- C4: a connection-reset, broken-pipe or send-timeout condition during
the `sendall` of a popped message drops that message (the queue afterwards
is exactly the rest, with no re-enqueue), writes nothing, and the loop
continues with the next iteration. -/
theorem send_transient_drop {F : Type} (serialize : F → List Nat)
    (enc : String → List Nat) (outcome : SendOutcome) (m : NetMsg F)
    (rest : List (NetMsg F)) (w : List Nat)
    (ht : outcome.transient = true)
    (hs : sendStep serialize enc m = some w) :
    sendAttempt serialize enc outcome (m :: rest) = (rest, Action.cont, []) := by
  rw [sendAttempt]
  rw [hs]
  cases outcome <;> simp_all [SendOutcome.transient]

/-- Witness for C4: a text message dropped on a connection reset. -/
theorem send_transient_drop_witness :
    sendAttempt (fun _ : Unit => ([] : List Nat)) (fun _ => [97])
      SendOutcome.connReset [NetMsg.text "a", NetMsg.video ()] =
      ([NetMsg.video ()], Action.cont, []) :=
  send_transient_drop (fun _ : Unit => ([] : List Nat)) (fun _ => [97])
    SendOutcome.connReset (NetMsg.text "a") [NetMsg.video ()]
    ((1 :: [0, 0, 0, 0, 0, 0, 0, 1]) ++ [97]) rfl rfl

/-- C3: when a valid 9-byte header announcing `len` bytes has been read but
the stream ends before `len` payload bytes arrive, the partial message is
discarded: for every decoder the latest-remote-frame cell is unchanged, no
decode output or log is produced, and the loop action is `continue`. -/
theorem recv_partial_eof_discard {F : Type} (unpickle : List Nat → Option F)
    (utf8dec : List Nat → Option String) (hdr shortPayload : List Nat)
    (remote : Option F) (tag len : Nat)
    (hhdr : unpackBQ hdr = some (tag, len))
    (hshort : shortPayload.length < len) :
    receiveStep unpickle utf8dec ⟨hdr ++ shortPayload, true⟩ remote =
      (remote, ⟨[], true⟩, Action.cont, []) := by
  have h9 := unpackBQ_some_length hhdr
  have hro := recvOp_header hdr shortPayload true h9
  simp only [receiveStep]
  rw [hro]
  dsimp only
  rw [if_neg (by intro hc; rw [hc] at h9; simp at h9), hhdr]
  dsimp only
  obtain ⟨bs, hbs⟩ := recvPayload_eof_short len ⟨shortPayload, true⟩ rfl hshort
  rw [hbs]

/-- Witness for C3: header announcing 5 bytes, stream ends after 2. -/
theorem recv_partial_eof_discard_witness :
    receiveStep (fun _ => some (7 : Nat)) (fun _ => some "x")
      ⟨[0, 0, 0, 0, 0, 0, 0, 0, 5] ++ [1, 2], true⟩ (some 3) =
      (some 3, ⟨[], true⟩, Action.cont, []) :=
  recv_partial_eof_discard (fun _ => some (7 : Nat)) (fun _ => some "x")
    [0, 0, 0, 0, 0, 0, 0, 0, 5] [1, 2] (some 3) 0 5 rfl (by norm_num)

/-- C10: a completely received message whose payload fails to decode — a
video payload `pickle.loads` rejects, or a text payload that is not valid
UTF-8 — is logged and discarded, the loop action is `continue`, and a
failed video decode leaves the latest-remote-frame cell unchanged. -/
theorem recv_decode_failure_discard {F : Type} (unpickle : List Nat → Option F)
    (utf8dec : List Nat → Option String) (hdr payload : List Nat)
    (remote : Option F) (e : Bool) (tag len : Nat)
    (hhdr : unpackBQ hdr = some (tag, len))
    (hlen : payload.length = len) :
    (tag = 0 → unpickle payload = none →
      receiveStep unpickle utf8dec ⟨hdr ++ payload, e⟩ remote =
        (remote, ⟨[], e⟩, Action.cont, [LogMsg.frameUnpicklingError]))
    ∧ (tag = 1 → utf8dec payload = none →
      receiveStep unpickle utf8dec ⟨hdr ++ payload, e⟩ remote =
        (remote, ⟨[], e⟩, Action.cont, [LogMsg.textDecodeError])) := by
  have h9 := unpackBQ_some_length hhdr
  have hro := recvOp_header hdr payload e h9
  have hpl : recvPayload len ⟨payload, e⟩ = (.got payload, ⟨[], e⟩) := by
    have := recvPayload_exact len ⟨payload, e⟩ (by dsimp only; omega)
    rw [this]
    dsimp only
    rw [← hlen, List.take_length, List.drop_length]
  constructor
  · intro htag hdec
    subst htag
    simp only [receiveStep]
    rw [hro]
    dsimp only
    rw [if_neg (by intro hc; rw [hc] at h9; simp at h9), hhdr]
    dsimp only
    rw [hpl]
    dsimp only
    rw [if_pos rfl, hdec]
  · intro htag hdec
    subst htag
    simp only [receiveStep]
    rw [hro]
    dsimp only
    rw [if_neg (by intro hc; rw [hc] at h9; simp at h9), hhdr]
    dsimp only
    rw [hpl]
    dsimp only
    rw [if_neg (by norm_num), if_pos rfl, hdec]

/-- Witness for C10: a complete 2-byte video payload that fails to
unpickle. -/
theorem recv_decode_failure_discard_witness :
    receiveStep (fun _ => (none : Option Nat)) (fun _ => some "x")
      ⟨[0, 0, 0, 0, 0, 0, 0, 0, 2] ++ [9, 9], false⟩ (some 5) =
      (some 5, ⟨[], false⟩, Action.cont, [LogMsg.frameUnpicklingError]) :=
  (recv_decode_failure_discard (fun _ => (none : Option Nat)) (fun _ => some "x")
    [0, 0, 0, 0, 0, 0, 0, 0, 2] [9, 9] (some 5) false 0 2 rfl rfl).1 rfl rfl

/-- C5 counterexample: when `self.cap.release()` raises, the cleanup block
aborts and neither the connection nor the socket is closed — the claim that
each release is scoped to execute even if a prior release raised is false
for the code's cleanup, which has no try/finally around the releases. -/
theorem cleanup_unscoped_counterexample :
    CleanupAct.closeSocket ∉ (cleanup ⟨true, false, false⟩ true true).1
    ∧ CleanupAct.closeConnection ∉ (cleanup ⟨true, false, false⟩ true true).1
    ∧ (cleanup ⟨true, false, false⟩ true true).2 = false := by decide

/-- C5 (amended): during orchestrator shutdown the camera, windows, audio
device, connection and socket are released in that order when no release
raises; the releases are not individually scoped, so a release that raises
aborts all remaining releases and the connection and socket are then not
closed. -/
theorem cleanup_order_unscoped (b : CleanupBehavior) (hasConn hasSock : Bool) :
    ((cleanup ⟨false, false, false⟩ hasConn hasSock).1 =
        [CleanupAct.releaseCamera, CleanupAct.destroyWindows, CleanupAct.quitAudio]
          ++ (if hasConn then [CleanupAct.closeConnection] else [])
          ++ (if hasSock then [CleanupAct.closeSocket] else [])
      ∧ (cleanup ⟨false, false, false⟩ hasConn hasSock).2 = true)
    ∧ ((b.capReleaseFails || b.destroyWindowsFails || b.pygameQuitFails) = true →
        CleanupAct.closeConnection ∉ (cleanup b hasConn hasSock).1
        ∧ CleanupAct.closeSocket ∉ (cleanup b hasConn hasSock).1
        ∧ (cleanup b hasConn hasSock).2 = false) := by
  obtain ⟨cf, df, pf⟩ := b
  cases cf <;> cases df <;> cases pf <;> cases hasConn <;> cases hasSock <;>
    decide

/-- Witness for the amended C5: camera release raising skips the socket
close. -/
theorem cleanup_order_unscoped_witness :
    CleanupAct.closeSocket ∉ (cleanup ⟨true, false, false⟩ true true).1 :=
  ((cleanup_order_unscoped ⟨true, false, false⟩ true true).2 (by decide)).2.1

/-- C6: in local-demo mode (`in_call` false) the network thread returns
before performing any socket operation, and — `self.connection` and
`self.socket` both still `None` — the orchestrator's cleanup closes no
socket either. -/
theorem local_demo_no_socket_ops (is_host : Bool) (loopOps : List SockOp)
    (b : CleanupBehavior) :
    networkThreadOps false is_host loopOps = []
    ∧ CleanupAct.closeConnection ∉ (cleanup b false false).1
    ∧ CleanupAct.closeSocket ∉ (cleanup b false false).1 := by
  refine ⟨rfl, ?_, ?_⟩ <;>
    · obtain ⟨cf, df, pf⟩ := b
      cases cf <;> cases df <;> cases pf <;> decide

/-- Witness for C6: host-mode flag set, yet no socket operation happens in
local-demo mode. -/
theorem local_demo_no_socket_ops_witness :
    networkThreadOps false true [SockOp.create] = [] :=
  (local_demo_no_socket_ops true [SockOp.create] ⟨false, false, false⟩).1

/-- C7: a successful recognition pushes the recognized string to the text
queue and enqueues a text network message with the same string exactly when
a call is active, with no log output; an `UnknownValueError` ("no speech
understood") produces no queue pushes and no log output. -/
theorem recognition_success_and_silence {A F : Type} (asr : A → ASRResult)
    (a : A) (restQ : List A) (in_call : Bool) (textQ : List String)
    (netQ : List (NetMsg F)) :
    (∀ t, asr a = ASRResult.success t →
      recognitionStep asr in_call (a :: restQ) textQ netQ =
        (restQ, textQ ++ [t],
          if in_call then netQ ++ [NetMsg.text t] else netQ, [])
      ∧ ((recognitionStep asr in_call (a :: restQ) textQ netQ).2.2.1
          = netQ ++ [NetMsg.text t] ↔ in_call = true))
    ∧ (asr a = ASRResult.unknownValue →
      recognitionStep asr in_call (a :: restQ) textQ netQ =
        (restQ, textQ, netQ, [])) := by
  constructor
  · intro t ht
    refine ⟨by rw [recognitionStep, ht], ?_⟩
    rw [recognitionStep, ht]
    cases in_call <;> simp
  · intro hu
    rw [recognitionStep, hu]

/-- Witness for C7: in-call recognition of "hi" lands on both queues. -/
theorem recognition_success_and_silence_witness :
    recognitionStep (fun _ : Nat => ASRResult.success "hi") true [0] []
      ([] : List (NetMsg Unit)) = ([], ["hi"], [NetMsg.text "hi"], []) :=
  ((recognition_success_and_silence (fun _ : Nat => ASRResult.success "hi")
    0 [] true [] ([] : List (NetMsg Unit))).1 "hi" rfl).1

/-- C8: when the translating flag is false the translation stage still pops
the recognized text but drops it: the translation queue is unchanged and no
machine-translation, synthesis or playback call is made, with no log
output. -/
theorem translation_disabled_drop
    (mt : String → String → String → Except String String)
    (tts : String → Except String Unit) (src dst : String)
    (t : String) (rest : List String) (transQ : List String) :
    translationStep mt tts src dst false (t :: rest) transQ =
      (rest, transQ, [], []) := rfl

/-- Witness for C8: with translating off, the queued text "x" is popped and
dropped while the translation queue keeps only its prior content. -/
theorem translation_disabled_drop_witness :
    translationStep (fun _ _ t => Except.ok t) (fun _ => Except.ok ()) "en" "hi"
      false ["x"] ["y"] = ([], ["y"], [], []) :=
  translation_disabled_drop (fun _ _ t => Except.ok t) (fun _ => Except.ok ())
    "en" "hi" "x" [] ["y"]

/-- C9: one video-stage display iteration leaves the text and translation
queues (contents and length) unchanged and overlays the last item of each
queue, read without removal — `queue[-1]` — with the translation overlay
shown only while translating. -/
theorem video_overlay_peek {Fr : Type} (resize : Fr → Fr)
    (translating in_call : Bool) (f0 : Fr) (textQ transQ : List String)
    (netQ : List (NetMsg Fr)) (remote : Option Fr) (quitKey : Bool) :
    (videoCaptureStep resize translating in_call (some f0) textQ transQ netQ
        remote quitKey).textQ = textQ
    ∧ (videoCaptureStep resize translating in_call (some f0) textQ transQ netQ
        remote quitKey).transQ = transQ
    ∧ (videoCaptureStep resize translating in_call (some f0) textQ transQ netQ
        remote quitKey).textQ.length = textQ.length
    ∧ (videoCaptureStep resize translating in_call (some f0) textQ transQ netQ
        remote quitKey).transQ.length = transQ.length
    ∧ (videoCaptureStep resize translating in_call (some f0) textQ transQ netQ
        remote quitKey).overlayText = textQ.getLast?
    ∧ (videoCaptureStep resize translating in_call (some f0) textQ transQ netQ
        remote quitKey).overlayTransl
        = (if translating then transQ.getLast? else none) := by
  refine ⟨rfl, rfl, rfl, rfl, ?_, ?_⟩
  · rw [videoCaptureStep]
    cases textQ <;> simp
  · rw [videoCaptureStep]
    cases translating <;> cases transQ <;> simp

/-- Witness for C9: the overlay shows the last queued text without
dequeuing it. -/
theorem video_overlay_peek_witness :
    (videoCaptureStep (fun n : Nat => n) true true (some 5) ["a", "b"] ["c"]
      [] none false).overlayText = some "b" :=
  (video_overlay_peek (fun n : Nat => n) true true 5 ["a", "b"] ["c"]
    [] none false).2.2.2.2.1

end VCT
